import Mathlib

/-!
# Verification of the gm3 core utilities

Shallow embedding of the decision logic in `src/gm3/util.js`:
the filter predicate evaluator (`featureMatch`, `inRange`, `inList`),
the feature set operations (`filterFeatures`), the geometry extent
reducer (`getFeaturesExtent`), the catalog visibility and z-order
resolver (`isLayerOn`, `getZValue`, `getLayersByZOrder`), the unit
converters (`convertLength`, `convertArea`) and the UTM projection
registry builder (`configureProjections`).

JavaScript numbers are modelled as exact rationals (`ℚ`); the `NaN`
produced by arithmetic on `undefined` is modelled by a dedicated
constructor where it matters.  JavaScript runtime errors
(dereferencing `undefined`) are modelled with `Option`, `none` being
the thrown `TypeError`.
-/

namespace Gm3

/-! ## JavaScript scalar values

Feature property values are GeoJSON scalars: strings, numbers,
booleans and `null`; `undefined` models the `undefined` obtained when a
feature lacks the requested property. -/

inductive JSVal where
  | num (q : ℚ)
  | str (s : String)
  | boolean (b : Bool)
  | null
  | undefined
deriving DecidableEq, Repr

/-- JavaScript `ToNumber` on the scalar values above, `none` standing for
`NaN`.  `null` coerces to `0`, booleans to `0`/`1`, `undefined` to `NaN`.
The numeric parsing of string operands is modelled as `NaN` (the general
`ToNumber` of a string); no claim exercises numeric-string coercion. -/
def jsToNumber : JSVal → Option ℚ
  | .num q => some q
  | .str _ => none
  | .boolean b => some (if b then 1 else 0)
  | .null => some 0
  | .undefined => none

/-- The JavaScript abstract relational comparison `a < b`: two strings
compare lexicographically, otherwise both sides coerce with `ToNumber`
and any `NaN` makes the comparison `false`. -/
def jsLT (a b : JSVal) : Bool :=
  match a, b with
  | .str s₁, .str s₂ => decide (s₁ < s₂)
  | a, b =>
    match jsToNumber a, jsToNumber b with
    | some x, some y => decide (x < y)
    | _, _ => false

/-- JavaScript strict equality `===` on the modelled scalars: values of
different kinds are never equal, values of the same kind compare by
value (no `NaN` literal exists among the modelled values). -/
def jsStrictEq (a b : JSVal) : Bool := decide (a = b)

/-! ## Features -/

/-- GeoJSON geometry as consumed by `getFeaturesExtent`.  Geometry kinds
other than the four recognised ones contribute nothing to the extent and
are collapsed into `other`. -/
inductive Geometry where
  | point (coordinates : ℚ × ℚ)
  | lineString (coordinates : List (ℚ × ℚ))
  | polygon (coordinates : List (List (ℚ × ℚ)))
  | multiLineString (coordinates : List (List (ℚ × ℚ)))
  | other
deriving DecidableEq, Repr

/-- A GeoJSON feature: a geometry and a property mapping (association
list with the keys unique in well-formed input; lookup takes the first
binding, as a JS object has a single binding per key). -/
structure Feature where
  geometry : Geometry
  properties : List (String × JSVal)
deriving DecidableEq, Repr

/-- `feature.properties[key]`: `undefined` when the key is absent. -/
def propOf (f : Feature) (key : String) : JSVal :=
  (List.lookup key f.properties).getD .undefined

/-! ## Filter predicate evaluator (`featureMatch` and helpers) -/

/-- `inList(value, list)` from util.js: `list.indexOf(value) >= 0`;
`indexOf` uses strict equality. -/
def inList (value : JSVal) (list : List JSVal) : Bool :=
  list.any (fun x => jsStrictEq x value)

/-- `inRange(value, min = null, max = null)` from util.js, branch for
branch.  A bound that is absent in the filter definition arrives as
`undefined` and the default parameter turns it into `null`, modelled
here as `none`.  Note the branch order of the source: when `min` is
`null` the function returns `value < max` even when `max` is also
`null` (a JS comparison against `null`, which coerces to `0`); the
trailing `return true` of the source is unreachable, since reaching it
would require `min` and `max` both non-`null`, which the first branch
already consumed. -/
def inRange (value : JSVal) (min max : Option ℚ) : Bool :=
  match min, max with
  | some mn, some mx => jsLT (.num mn) value && jsLT value (.num mx)
  | none, none => jsLT value .null
  | none, some mx => jsLT value (.num mx)
  | some mn, none => jsLT (.num mn) value

/-- One entry of a filter object: either a typed clause
(`{type: 'range'|'list'|'equals', ...}`) or a shorthand right-hand side
(a bare array, handled as a list match, or a bare scalar, handled as a
strict-equality match).  The variant mirrors exactly the branches of
the `switch` in `featureMatch`. -/
inductive FilterDef where
  | range (min max : Option ℚ)
  | list (value : List JSVal)
  | equals (value : JSVal)
  | shorthandList (value : List JSVal)
  | shorthand (value : JSVal)
deriving DecidableEq, Repr

/-- A filter is a JS object: an ordered association list of keys to
filter definitions.  The mode marker `match: 'any'` is an ordinary key
of the same object, modelled as the entry
`("match", .shorthand (.str "any"))`. -/
abbrev Filter := List (String × FilterDef)

/-- The body of the `switch(filter_def.type)` statement in
`featureMatch`, evaluating one filter entry against the feature's
property value. -/
def evalClause (prop_val : JSVal) : FilterDef → Bool
  | .range mn mx => inRange prop_val mn mx
  | .list vs => inList prop_val vs
  | .equals v => jsStrictEq v prop_val
  | .shorthandList vs => inList prop_val vs
  | .shorthand v => jsStrictEq v prop_val

/-- The `for(let filter_key in filter)` loop of `featureMatch` with its
two short-circuit exits, followed by the trailing
`if(match_all) return true; return false`. -/
def featureMatchLoop (f : Feature) (match_all : Bool) : Filter → Bool
  | [] => match_all
  | (key, fd) :: rest =>
    let v := evalClause (propOf f key) fd
    if v && !match_all then true
    else if !v && match_all then false
    else featureMatchLoop f match_all rest

/-- `featureMatch(feature, filter)` from util.js.  `match_all` is
`false` exactly when `filter.match === 'any'`; the loop then runs over
every key of the filter object — including the `match` key itself,
whose value `'any'` is evaluated as a shorthand equality clause against
the feature's `match` property. -/
def featureMatch (f : Feature) (filter : Filter) : Bool :=
  featureMatchLoop f
    (!(decide (List.lookup "match" filter = some (.shorthand (.str "any"))))) filter

/-! ## Feature set operations (`filterFeatures`)

`filterFeatures` compiles its filter with the external
`@mapbox/mapbox-gl-style-spec` `createFilter`, applied to
`['all'].concat(filter)`.  Both the expression type and the compiler
are external collaborators, so the embedding abstracts over them. -/

/-- The `for(let feature of features) ... push` loop of
`filterFeatures`: keep a feature exactly when
`inverse !== filter_function(feature)`. -/
def filterFeaturesLoop (filter_function : Feature → Bool) (inverse : Bool) :
    List Feature → List Feature
  | [] => []
  | f :: rest =>
    if inverse ≠ filter_function f then f :: filterFeaturesLoop filter_function inverse rest
    else filterFeaturesLoop filter_function inverse rest

/-- `filterFeatures(features, filter, inverse = true)` from util.js.
`MBExpr` is the (external) mapbox filter-expression type, `concatAll`
models `['all'].concat(filter)` and `createFilter` the external
predicate compiler; the default of the omitted third argument is
`true`. -/
def filterFeatures {MBExpr MBWrapped : Type}
    (concatAll : MBExpr → MBWrapped) (createFilter : MBWrapped → Feature → Bool)
    (features : List Feature) (filter : MBExpr) (inverse : Bool := true) :
    List Feature :=
  filterFeaturesLoop (createFilter (concatAll filter)) inverse features

/-! ## Geometry extent reducer (`getFeaturesExtent`) -/

/-- The four-slot bounds array `[minx, miny, maxx, maxy]`, each slot
`null` until a coordinate has been visited. -/
structure Bounds where
  minx : Option ℚ
  miny : Option ℚ
  maxx : Option ℚ
  maxy : Option ℚ
deriving DecidableEq, Repr

/-- The inner `min` helper of `getFeaturesExtent`:
`if(x === null || y < x) return y; return x`. -/
def jsMin (x : Option ℚ) (y : ℚ) : Option ℚ :=
  match x with
  | none => some y
  | some x => if y < x then some y else some x

/-- The inner `max` helper of `getFeaturesExtent`:
`if(x === null || y > x) return y; return x`. -/
def jsMax (x : Option ℚ) (y : ℚ) : Option ℚ :=
  match x with
  | none => some y
  | some x => if y > x then some y else some x

/-- The inner `update_bounds(x, y)` helper of `getFeaturesExtent`. -/
def updateBounds (b : Bounds) (x y : ℚ) : Bounds :=
  ⟨jsMin b.minx x, jsMin b.miny y, jsMax b.maxx x, jsMax b.maxy y⟩

/-- The coordinate pairs `getFeaturesExtent` visits for one geometry, in
visiting order: a `Point` contributes itself, a `LineString` its
vertices, `Polygon` and `MultiLineString` every vertex of every
ring/line; other geometry kinds contribute nothing. -/
def geomCoords : Geometry → List (ℚ × ℚ)
  | .point c => [c]
  | .lineString cs => cs
  | .polygon rings => rings.flatten
  | .multiLineString lines => lines.flatten
  | .other => []

/-- All coordinate pairs visited across a feature collection, in
visiting order. -/
def visitedCoords (features : List Feature) : List (ℚ × ℚ) :=
  features.flatMap (fun f => geomCoords f.geometry)

/-- Folding `update_bounds` over the visited coordinates, starting from
`[null, null, null, null]`. -/
def foldBounds (pts : List (ℚ × ℚ)) : Bounds :=
  pts.foldl (fun b p => updateBounds b p.1 p.2) ⟨none, none, none, none⟩

/-! ## Map sources, catalog and z-order resolver -/

/-- One sub-layer of a map source: `{name, on}`, plus the optional
`features` array that `getFeaturesExtent` reads on vector sources
(`if(layer.features)`). -/
structure MSLayer where
  name : String
  «on» : Bool
  features : Option (List Feature) := none
deriving DecidableEq, Repr

/-- One map source of the state snapshot: a draw-order `zIndex` and its
sub-layers. -/
structure MapSource where
  zIndex : Int
  layers : List MSLayer
deriving DecidableEq, Repr

/-- The `mapSources` section of the state tree: a JS object mapping
source name to map source, modelled as an association list with unique
keys (lookup takes the first binding). -/
abbrev MapSources := List (String × MapSource)

/-- `getFeaturesExtent(mapSource)` from util.js.  The source reads
`mapSource.layers[0]` without a guard, so an empty `layers` array makes
the subsequent `layer.features` access throw — modelled as `none`.
When `layer.features` is absent the bounds stay `[null,null,null,null]`. -/
def getFeaturesExtent (mapSource : MapSource) : Option Bounds :=
  match mapSource.layers with
  | [] => none
  | layer :: _ =>
    some (match layer.features with
      | none => ⟨none, none, none, none⟩
      | some fs => foldBounds (visitedCoords fs))

/-- A `SourceRef`, one element of a catalog layer's `src` array. -/
structure SourceRef where
  mapSourceName : String
  layerName : String
deriving DecidableEq, Repr

/-- A catalog node: `children` is `none` exactly when
`typeof(node.children) === 'undefined'`, i.e. the node is a layer; a
layer carries its `src` array of source references. -/
structure CatalogNode where
  children : Option (List String) := none
  src : List SourceRef := []
deriving DecidableEq, Repr

/-- The catalog object, in `Object.keys` (insertion) order. -/
abbrev Catalog := List CatalogNode

/-- The inner `for(const layer of map_source.layers)` loop of
`isLayerOn`: every sub-layer whose `name` equals the referenced
`layerName` is and-folded into the running `is_on` accumulator. -/
def foldSubLayers (layerName : String) (is_on : Bool) (layers : List MSLayer) : Bool :=
  layers.foldl (fun acc l => if l.name = layerName then acc && l.«on» else acc) is_on

/-- The outer `for(const src of layer.src)` loop of `isLayerOn` with its
early `return false` on a missing map source. -/
def isLayerOnLoop (ms : MapSources) : List SourceRef → Bool → Bool
  | [], is_on => is_on
  | src :: rest, is_on =>
    match List.lookup src.mapSourceName ms with
    | some map_source => isLayerOnLoop ms rest (foldSubLayers src.layerName is_on map_source.layers)
    | none => false

/-- `isLayerOn(mapSources, layer)` from util.js.  `mapSources` is
`undefined` during bootstrap (`if(!mapSources) return false`), modelled
by the `Option`. -/
def isLayerOn (mapSources : Option MapSources) (layer : CatalogNode) : Bool :=
  match mapSources with
  | none => false
  | some ms => isLayerOnLoop ms layer.src true

/-- `getZValue(mapSources, layer)` from util.js:
`mapSources[layer.src[0].mapSourceName].zIndex` with no guards.  `none`
models the `TypeError` thrown when `layer.src` is empty, `mapSources`
is undefined, or the referenced map source is absent. -/
def getZValue (mapSources : Option MapSources) (layer : CatalogNode) : Option Int :=
  match mapSources, layer.src with
  | some ms, src :: _ => (List.lookup src.mapSourceName ms).map MapSource.zIndex
  | _, _ => none

/-- One entry of the z-ordered draw list: `{zIndex, layer}`. -/
structure ZOrderEntry where
  zIndex : Int
  layer : CatalogNode
deriving DecidableEq, Repr

/-- The descending z-order relation used to model
`layers.sort(function(a, b) { return (a.zIndex > b.zIndex) ? -1 : 1; })`.
The source comparator never returns `0`, so the relative order of
entries with equal `zIndex` is implementation-defined in JS; the model
resolves ties stably (catalog traversal order preserved), the
deterministic tie-break the spec recommends. -/
def zGE (a b : ZOrderEntry) : Prop := b.zIndex ≤ a.zIndex

instance : DecidableRel zGE := fun a b => inferInstanceAs (Decidable (b.zIndex ≤ a.zIndex))

/-- The collection loop of `getLayersByZOrder`: walk the catalog in key
order, keep the nodes without `children` that are on, and pair each
with its `getZValue`.  `none` propagates the `TypeError` of an
unguarded `getZValue` dereference. -/
def collectZLayers (mapSources : Option MapSources) : Catalog → Option (List ZOrderEntry)
  | [] => some []
  | node :: rest =>
    if node.children = none then
      if isLayerOn mapSources node then
        match getZValue mapSources node with
        | none => none
        | some z => (collectZLayers mapSources rest).map (⟨z, node⟩ :: ·)
      else collectZLayers mapSources rest
    else collectZLayers mapSources rest

/-- `getLayersByZOrder(catalog, mapSources)` from util.js: collect the
visible layer nodes, then sort them descending by `zIndex`. -/
def getLayersByZOrder (catalog : Catalog) (mapSources : Option MapSources) :
    Option (List ZOrderEntry) :=
  (collectZLayers mapSources catalog).map (List.insertionSort zGE)

/-! ## Unit conversion -/

/-- The result of a JS arithmetic expression over possibly-undefined
operands: a number, or `NaN`. -/
inductive JSNum where
  | nan
  | val (q : ℚ)
deriving DecidableEq, Repr

/-- The `EQUIVALENT_METERS` table of util.js, key for key. -/
def EQUIVALENT_METERS : List (String × ℚ) :=
  [("ft", 0.3048), ("yd", 0.9144), ("mi", 1609.347), ("in", 0.0254),
   ("m", 1), ("km", 1000), ("ch", 20.11684), ("a", 63.63), ("h", 100)]

/-- `EQUIVALENT_METERS[units]`: `none` models the `undefined` obtained
for a key outside the table. -/
def equivalentMeters (units : String) : Option ℚ :=
  List.lookup units EQUIVALENT_METERS

/-- `convertLength(length, srcUnits, destUnits)` from util.js:
`length * EQUIVALENT_METERS[srcUnits] / EQUIVALENT_METERS[destUnits]`.
If either lookup is `undefined` the JS arithmetic silently produces
`NaN`. -/
def convertLength (length : ℚ) (srcUnits destUnits : String) : JSNum :=
  match equivalentMeters srcUnits, equivalentMeters destUnits with
  | some a, some b => .val (length * a / b)
  | _, _ => .nan

/-- `convertArea(area, srcUnits, destUnits)` from util.js, with the two
ratios squared. -/
def convertArea (area : ℚ) (srcUnits destUnits : String) : JSNum :=
  match equivalentMeters srcUnits, equivalentMeters destUnits with
  | some a, some b => .val (area * a ^ 2 / b ^ 2)
  | _, _ => .nan

/-! ### IEEE-754 binary64 rounding

`convertLength` above computes in exact rational arithmetic; the JS
program computes in IEEE-754 binary64 doubles, where each `*` and `/`
rounds its exact result to 53 significant bits (round to nearest, ties
to even).  The following model of that rounding — for nonzero finite
values in the normal range, which covers every input the claims touch
(no overflow, subnormals or NaN arise) — lets the exactness of the
round trip be settled against the arithmetic the program really
performs. -/

/-- `⌊log₂ n⌋` by structural recursion on a fuel argument (`fuel ≥ n`
suffices), so it reduces in the kernel. -/
def log2Fuel : Nat → Nat → Nat
  | 0, _ => 0
  | fuel + 1, n => if n ≥ 2 then log2Fuel fuel (n / 2) + 1 else 0

/-- `⌊log₂ n⌋` for `n ≥ 1`. -/
def natLog2 (n : Nat) : Nat := log2Fuel n n

/-- Round the nonnegative rational `n / d` to the nearest integer,
ties to even. -/
def rndNatDiv (n d : Nat) : Nat :=
  let q := n / d
  let r := n % d
  if 2 * r < d then q
  else if d < 2 * r then q + 1
  else if q % 2 = 0 then q else q + 1

/-- IEEE-754 binary64 rounding (round to nearest, ties to even) of a
rational in the normal finite range: find the exponent `e` with
`2^e ≤ |x| < 2^(e+1)`, round `|x| / 2^(e-52)` to the nearest even
integer — the 53-bit significand — and reassemble. -/
def float64Round (x : ℚ) : ℚ :=
  if x = 0 then 0
  else
    let a := x.num.natAbs
    let b := x.den
    let e0 : Int := (natLog2 a : Int) - (natLog2 b : Int)
    let geq : Bool :=
      if 0 ≤ e0 then decide (b * 2 ^ e0.toNat ≤ a) else decide (b ≤ a * 2 ^ (-e0).toNat)
    let e := if geq then e0 else e0 - 1
    let p := e - 52
    let m := if 0 ≤ p then rndNatDiv a (b * 2 ^ p.toNat) else rndNatDiv (a * 2 ^ (-p).toNat) b
    let mag : ℚ := if 0 ≤ p then (m : ℚ) * 2 ^ p.toNat else (m : ℚ) / 2 ^ (-p).toNat
    if 0 < x then mag else -mag

/-- Binary64 multiplication: the exact product, rounded. -/
def fmul64 (x y : ℚ) : ℚ := float64Round (x * y)

/-- Binary64 division: the exact quotient, rounded. -/
def fdiv64 (x y : ℚ) : ℚ := float64Round (x / y)

/-- The `EQUIVALENT_METERS` constants as a JS engine stores them: the
binary64 double nearest each decimal literal. -/
def equivalentMetersFP (units : String) : Option ℚ :=
  (equivalentMeters units).map float64Round

/-- `convertLength` as the program really computes it:
`length * EQUIVALENT_METERS[srcUnits] / EQUIVALENT_METERS[destUnits]`
evaluated left to right in binary64 arithmetic, each operation
rounding. -/
def convertLengthFP (length : ℚ) (srcUnits destUnits : String) : JSNum :=
  match equivalentMetersFP srcUnits, equivalentMetersFP destUnits with
  | some a, some b => .val (fdiv64 (fmul64 length a) b)
  | _, _ => .nan

/-! ## Projection registry builder (`configureProjections`) -/

/-- The character of one decimal digit. -/
def digitChar : Nat → Char
  | 0 => '0' | 1 => '1' | 2 => '2' | 3 => '3' | 4 => '4'
  | 5 => '5' | 6 => '6' | 7 => '7' | 8 => '8' | 9 => '9'
  | _ => '?'

/-- Little-endian decimal digits of `n`, with structural recursion on a
fuel argument so the definition reduces in the kernel; with `fuel ≥ n`
the fuel never runs out. -/
def digitsRevFuel : Nat → Nat → List Nat
  | _, 0 => []
  | 0, _ + 1 => []
  | fuel + 1, n + 1 => (n + 1) % 10 :: digitsRevFuel fuel ((n + 1) / 10)

/-- Little-endian decimal digits of `n` (empty for `0`). -/
def digitsRev (n : Nat) : List Nat := digitsRevFuel n n

/-- The value denoted by a little-endian digit list — the left inverse
of `digitsRev`, used to prove it injective. -/
def digitsVal : List Nat → Nat
  | [] => 0
  | d :: rest => d + 10 * digitsVal rest

/-- The JavaScript number-to-string conversion for the nonnegative
integers the projection builder concatenates (`'EPSG:' + epsg_code`,
`'UTM' + utm_zone`): standard decimal notation.  Defined from explicit
digit lists rather than the built-in `Nat.repr` so that its injectivity
is provable. -/
def natRepr (n : Nat) : String :=
  if n = 0 then "0" else String.mk ((digitsRev n).reverse.map digitChar)

/-- An `'EPSG:' + code` projection id. -/
def epsgId (code : Nat) : String := "EPSG:" ++ natRepr code

/-- A `'UTM' + zone + ('N'|'S')` projection alias. -/
def utmAlias (zone : Nat) (sfx : String) : String := "UTM" ++ natRepr zone ++ sfx

/-- The external proj4 registry: the ordered trace of `p4.defs(id, v)`
registration calls.  The stored value is `Option String` because the
second argument of a registration is itself the result of a one-argument
`p4.defs(id)` lookup in the alias case, which is `undefined` for an
unknown id. -/
structure P4 where
  defsCalls : List (String × Option String)
deriving DecidableEq, Repr

/-- Two-argument `p4.defs(id, v)`: record a registration. -/
def p4define (p : P4) (id : String) (v : Option String) : P4 :=
  ⟨p.defsCalls ++ [(id, v)]⟩

/-- One-argument `p4.defs(id)`: look up the most recent registration of
`id` (`none` = `undefined` when the id was never registered). -/
def p4lookup (p : P4) (id : String) : Option String :=
  (List.lookup id p.defsCalls.reverse).join

/-- The body of the double loop of `configureProjections`, for one
`utm_zone` and one `north ∈ {'north', 'south'}`. -/
def configureZone (p : P4) (utm_zone : Nat) (north : String) : P4 :=
  let epsg_code := 32600 + utm_zone + (if north = "north" then 0 else 100)
  let proj_id := "EPSG:" ++ natRepr epsg_code
  let proj_alias := "UTM" ++ natRepr utm_zone ++ (if north = "north" then "N" else "S")
  let proj_string := "+proj=utm +zone=" ++ natRepr utm_zone ++ " +" ++ north
    ++ "+datum=WGS84 +units=m +no_defs"
  let p₁ := p4define p proj_id (some proj_string)
  p4define p₁ proj_alias (p4lookup p₁ proj_id)

/-- `configureProjections(p4)` from util.js: for `utm_zone` from 1 to 60
and `north` over `['north', 'south']`, register the EPSG id and then its
`UTM<zone><N|S>` alias (whose value is fetched back from the registry). -/
def configureProjections (p4 : P4) : P4 :=
  (List.range 60).foldl
    (fun p z₀ =>
      ["north", "south"].foldl (fun p north => configureZone p (z₀ + 1) north) p)
    p4

/-- The closed nine-symbol unit enumeration: the keys of
`EQUIVALENT_METERS`. -/
def unitSymbols : List String := EQUIVALENT_METERS.map Prod.fst

/-- The registration trace the spec prescribes for the projection
builder, written from the spec's words: for each zone 1–60, in
zone-major, hemisphere-minor (north before south) order, an EPSG id
`32600 + zone` (north) or `32600 + zone + 100` (south) followed by its
`UTM<zone><N|S>` alias, both bound to the proj-string with the
source's missing space before `+datum` preserved.  One zone's four
registrations: -/
def utmZoneGroup (zone : Nat) : List (String × Option String) :=
  let sN := "+proj=utm +zone=" ++ natRepr zone ++ " +north+datum=WGS84 +units=m +no_defs"
  let sS := "+proj=utm +zone=" ++ natRepr zone ++ " +south+datum=WGS84 +units=m +no_defs"
  [(epsgId (32600 + zone), some sN),
   (utmAlias zone "N", some sN),
   (epsgId (32600 + zone + 100), some sS),
   (utmAlias zone "S", some sS)]

/-- The registration trace the spec prescribes, assembled zone-major. -/
def utmTraceSpec : List (String × Option String) :=
  (List.range 60).flatMap (fun z₀ => utmZoneGroup (z₀ + 1))

/-!
## Theorems

The claims are settled below; shared helper lemmas come before the
per-claim theorems that use them.
-/

/-- A string is outside the unit enumeration exactly when its
`EQUIVALENT_METERS` lookup is `undefined`. -/
lemma equivalentMeters_eq_none_iff (u : String) :
    equivalentMeters u = none ↔ u ∉ unitSymbols := by
  unfold equivalentMeters unitSymbols
  rw [List.lookup_eq_none_iff]
  constructor
  · intro h hm
    rcases List.mem_map.mp hm with ⟨p, hp, hfst⟩
    have := h p hp
    simp [← hfst] at this
  · intro h p hp
    have : p.1 ≠ u := by
      intro e
      exact h (List.mem_map.mpr ⟨p, hp, e⟩)
    simp [bne_iff_ne]
    exact fun e => this e.symm

/-! ### C3 — conversions with a unit outside the enumeration -/

/-- C3, counterexample: `"xx"` is outside the closed unit enumeration,
yet `convertLength(1, 'xx', 'm')` and `convertArea(1, 'xx', 'm')` do
not fail with an `UnknownUnit` error — the source has no error path at
all and the arithmetic silently produces `NaN`. -/
theorem convert_unknown_unit_cex :
    "xx" ∉ unitSymbols ∧
      convertLength 1 "xx" "m" = .nan ∧ convertArea 1 "xx" "m" = .nan :=
  ⟨by decide, rfl, rfl⟩

/-- C3, amended: whenever the source or destination unit is outside the
closed nine-symbol enumeration, `convertLength` and `convertArea`
silently evaluate to `NaN` (undefined propagated through the JS
arithmetic); no `UnknownUnit` error is raised and no finite numeric
value is returned. -/
theorem convert_unknown_unit_nan (x : ℚ) (src dest : String)
    (h : src ∉ unitSymbols ∨ dest ∉ unitSymbols) :
    convertLength x src dest = .nan ∧ convertArea x src dest = .nan := by
  unfold convertLength convertArea
  rcases h with h | h
  · rw [(equivalentMeters_eq_none_iff src).mpr h]
    cases equivalentMeters dest <;> exact ⟨rfl, rfl⟩
  · rw [(equivalentMeters_eq_none_iff dest).mpr h]
    cases equivalentMeters src <;> exact ⟨rfl, rfl⟩

/-- Witness for C3's amended theorem at `src = "xx"`, `dest = "m"`. -/
theorem convert_unknown_unit_nan_witness :
    ("xx" ∉ unitSymbols ∨ "m" ∉ unitSymbols) ∧
      convertLength (5 : ℚ) "xx" "m" = .nan ∧ convertArea (5 : ℚ) "xx" "m" = .nan :=
  ⟨Or.inl (by decide), convert_unknown_unit_nan 5 "xx" "m" (Or.inl (by decide))⟩

/-! ### C8 — identity round trip of `convertLength` -/

set_option maxRecDepth 10000 in
unseal Rat.mul Rat.inv Rat.ofScientific in
/-- C8, counterexample: in the binary64 arithmetic the program actually
performs, the round trip is not exact.  `2191026253945705 / 2^33` is
the double denoted by the JS literal `255069.02648435265`; feeding it
through `convertLength(x, 'ft', 'ft')` — one rounded multiplication by
the double nearest `0.3048`, one rounded division by it — returns
`8764105015782819 / 2^35`, which is one ulp below the input
(`x = 8764105015782820 / 2^35`).  So "`convertLength(x, u, u) == x`
exactly" is false of the code for `u = 'ft'` at this input. -/
theorem convertLength_float_roundtrip_cex :
    "ft" ∈ unitSymbols ∧
      convertLengthFP (2191026253945705 / 2 ^ 33) "ft" "ft" =
        .val (8764105015782819 / 2 ^ 35) ∧
      (8764105015782819 / 2 ^ 35 : ℚ) ≠ (2191026253945705 / 2 ^ 33 : ℚ) :=
  ⟨by decide, by decide, by decide⟩

/-- C8, amended: the round trip `convertLength(x, u, u)` computes
`x * c / c` for the table constant `c` of `u`, which equals `x` in
exact (real/rational) arithmetic for every unit `u` of the closed
enumeration; under the program's IEEE-754 double rounding the result
can differ from `x` in the last ulp (see the counterexample above). -/
theorem convertLength_id (x : ℚ) (u : String) (h : u ∈ unitSymbols) :
    convertLength x u u = .val x := by
  have step : ∀ c : ℚ, c ≠ 0 → equivalentMeters u = some c →
      convertLength x u u = .val x := by
    intro c hc hm
    unfold convertLength
    rw [hm]
    simp [mul_div_assoc, div_self hc]
  fin_cases h
  · exact step 0.3048 (by norm_num) rfl
  · exact step 0.9144 (by norm_num) rfl
  · exact step 1609.347 (by norm_num) rfl
  · exact step 0.0254 (by norm_num) rfl
  · exact step 1 (by norm_num) rfl
  · exact step 1000 (by norm_num) rfl
  · exact step 20.11684 (by norm_num) rfl
  · exact step 63.63 (by norm_num) rfl
  · exact step 100 (by norm_num) rfl

/-- Witness for C8's amended theorem at `x = 7`, `u = "km"`. -/
theorem convertLength_id_witness :
    "km" ∈ unitSymbols ∧ convertLength (7 : ℚ) "km" "km" = .val 7 :=
  ⟨by decide, convertLength_id 7 "km" (by decide)⟩

/-! ### C9 — `filterFeatures` excludes matching features by default -/

/-- C9: with the `inverse` argument left at its default (`true`),
`filterFeatures` returns exactly the features on which the compiled
filter predicate is `false`, in input order: matching features are
excluded by default. -/
theorem filterFeatures_default_excludes {MBExpr MBWrapped : Type}
    (concatAll : MBExpr → MBWrapped) (createFilter : MBWrapped → Feature → Bool)
    (features : List Feature) (filter : MBExpr) :
    filterFeatures concatAll createFilter features filter =
      features.filter (fun f => !(createFilter (concatAll filter) f)) := by
  unfold filterFeatures
  generalize createFilter (concatAll filter) = ff
  induction features with
  | nil => rfl
  | cons f rest ih =>
    cases h : ff f <;> simp [filterFeaturesLoop, h, ih]

/-! ### C6 — range clause with both bounds absent -/

/-- C6, failing input for the code bug: a range clause with both bounds
absent should be vacuously true (so says the claim, and so says the
comment in the source above the unreachable `return true`), but the
source's `min === null` branch fires first and compares the value
against `null`, which JS coerces to `0`: `inRange(5, null, null)`
returns `5 < 0 = false`, and a mode-All filter consisting of exactly
that clause rejects a feature with property value `5`. -/
theorem inRange_both_absent_bug :
    inRange (.num 5) none none = false ∧
      featureMatch ⟨.other, [("a", .num 5)]⟩ [("a", .range none none)] = false ∧
      inRange (.num (-1)) none none = true :=
  ⟨rfl, rfl, rfl⟩

/-! ### C1 — `featureMatch` in mode Any -/

/-- In `'any'` mode (`match_all = false`) the loop of `featureMatch`
returns true exactly when some iterated filter entry evaluates true. -/
lemma featureMatchLoop_any (f : Feature) (l : Filter) :
    featureMatchLoop f false l = l.any (fun p => evalClause (propOf f p.1) p.2) := by
  induction l with
  | nil => rfl
  | cons p rest ih =>
    obtain ⟨k, fd⟩ := p
    unfold featureMatchLoop
    cases h : evalClause (propOf f k) fd <;> simp [h, ih]

/-- C1, counterexample: a filter whose only entry is the mode marker
`match: 'any'` — i.e. a mode-Any filter with an empty clause set —
returns `true` on a feature whose `match` property is the string
`'any'`, because the `for..in` loop of the source iterates over the
`match` key itself and treats its value `'any'` as a shorthand equality
clause.  The claim asserts the result is `false` for every feature. -/
theorem featureMatch_any_empty_cex :
    (∀ p ∈ ([("match", FilterDef.shorthand (.str "any"))] : Filter), p.1 = "match") ∧
      List.lookup "match" ([("match", FilterDef.shorthand (.str "any"))] : Filter) =
        some (.shorthand (.str "any")) ∧
      featureMatch ⟨.other, [("match", .str "any")]⟩
        [("match", FilterDef.shorthand (.str "any"))] = true :=
  ⟨by decide, rfl, rfl⟩

/-- C1, amended: for every feature and filter in mode Any,
`featureMatch` returns true iff at least one *entry of the filter
object* — the `match` mode marker included, evaluated as a shorthand
equality clause against the feature's `match` property — evaluates
true; with an empty clause set the result is `false` for every feature
whose `match` property is not the string `'any'`. -/
theorem featureMatch_any_iff (f : Feature) (filter : Filter)
    (h : List.lookup "match" filter = some (.shorthand (.str "any"))) :
    featureMatch f filter = true ↔
      ∃ p ∈ filter, evalClause (propOf f p.1) p.2 = true := by
  have e : (!(decide (List.lookup "match" filter =
      some (FilterDef.shorthand (.str "any"))))) = false := by simp [h]
  unfold featureMatch
  rw [e, featureMatchLoop_any]
  exact List.any_eq_true

/-- Witness for C1's amended theorem: a mode-Any filter with one real
clause `PIN: '123'` matches a feature carrying that property. -/
theorem featureMatch_any_iff_witness :
    List.lookup "match"
        ([("match", FilterDef.shorthand (.str "any")),
          ("PIN", FilterDef.shorthand (.str "123"))] : Filter) =
      some (.shorthand (.str "any")) ∧
      featureMatch ⟨.other, [("PIN", .str "123")]⟩
        [("match", FilterDef.shorthand (.str "any")),
         ("PIN", FilterDef.shorthand (.str "123"))] = true :=
  ⟨rfl,
    (featureMatch_any_iff ⟨.other, [("PIN", .str "123")]⟩
        [("match", FilterDef.shorthand (.str "any")),
         ("PIN", FilterDef.shorthand (.str "123"))] rfl).mpr
      ⟨("PIN", FilterDef.shorthand (.str "123")), by decide, by decide⟩⟩

/-! ### C2 — `isLayerOn` characterization -/

/-- The inner sub-layer loop of `isLayerOn` and-folds `l.on` over every
sub-layer whose name matches. -/
lemma foldSubLayers_eq (name : String) (acc : Bool) (layers : List MSLayer) :
    foldSubLayers name acc layers =
      (acc && layers.all (fun l => if l.name = name then l.«on» else true)) := by
  induction layers generalizing acc with
  | nil => simp [foldSubLayers]
  | cons l rest ih =>
    show foldSubLayers name (if l.name = name then acc && l.«on» else acc) rest = _
    rw [ih]
    by_cases h : l.name = name <;> simp [h, Bool.and_assoc]

/-- The outer loop of `isLayerOn` is an `all` over the source refs:
each ref demands that its map source exist and that every sub-layer of
that source carrying the referenced name be on. -/
lemma isLayerOnLoop_eq (ms : MapSources) (srcs : List SourceRef) (acc : Bool) :
    isLayerOnLoop ms srcs acc =
      (acc && srcs.all (fun src =>
        match List.lookup src.mapSourceName ms with
        | some source =>
          source.layers.all (fun l => if l.name = src.layerName then l.«on» else true)
        | none => false)) := by
  induction srcs generalizing acc with
  | nil => simp [isLayerOnLoop]
  | cons src rest ih =>
    cases hl : List.lookup src.mapSourceName ms with
    | none =>
      unfold isLayerOnLoop
      rw [hl]
      simp [hl]
    | some source =>
      unfold isLayerOnLoop
      rw [hl]
      show isLayerOnLoop ms rest (foldSubLayers src.layerName acc source.layers) = _
      rw [ih, foldSubLayers_eq]
      simp [hl, Bool.and_assoc]

/-- The per-ref check of `isLayerOn`, in propositional form. -/
lemma srcOk_iff (ms : MapSources) (src : SourceRef) :
    (match List.lookup src.mapSourceName ms with
      | some source =>
        source.layers.all (fun l => if l.name = src.layerName then l.«on» else true)
      | none => false) = true ↔
      ∃ source, List.lookup src.mapSourceName ms = some source ∧
        ∀ l ∈ source.layers, l.name = src.layerName → l.«on» = true := by
  cases hl : List.lookup src.mapSourceName ms with
  | none => simp
  | some source =>
    simp only [List.all_eq_true]
    constructor
    · intro h
      refine ⟨source, rfl, fun l hm hn => ?_⟩
      have := h l hm
      simpa [hn] using this
    · rintro ⟨source', he, h⟩
      obtain rfl : source = source' := by
        injection he
      intro l hm
      by_cases hn : l.name = src.layerName
      · simpa [hn] using h l hm hn
      · simp [hn]

/-- C2: `isLayerOn(mapSources, layer)` is true iff `mapSources` is
present, every `SourceRef` of `layer.src` resolves to an existing map
source, and within that source every sub-layer carrying the referenced
`layerName` has `on = true` (vacuously true when no sub-layer carries
the name, matching the and-fold of the source); a missing map source or
an absent `mapSources` gives `false`, never an error. -/
theorem isLayerOn_iff (mapSources : Option MapSources) (layer : CatalogNode) :
    isLayerOn mapSources layer = true ↔
      ∃ ms, mapSources = some ms ∧
        ∀ src ∈ layer.src, ∃ source,
          List.lookup src.mapSourceName ms = some source ∧
          ∀ l ∈ source.layers, l.name = src.layerName → l.«on» = true := by
  cases mapSources with
  | none => simp [isLayerOn]
  | some ms =>
    show isLayerOnLoop ms layer.src true = true ↔ _
    rw [isLayerOnLoop_eq]
    simp only [Bool.true_and, List.all_eq_true, Option.some.injEq]
    constructor
    · intro h
      exact ⟨ms, rfl, fun src hs => (srcOk_iff ms src).mp (h src hs)⟩
    · rintro ⟨ms', he, h⟩
      subst he
      exact fun src hs => (srcOk_iff ms src).mpr (h src hs)

/-! ### C5 — the projection registry builder -/

/-- With enough fuel, the digit list of `n` denotes `n`. -/
lemma digitsVal_digitsRevFuel : ∀ fuel n, n ≤ fuel → digitsVal (digitsRevFuel fuel n) = n := by
  intro fuel
  induction fuel with
  | zero =>
    intro n h
    obtain rfl : n = 0 := Nat.le_zero.mp h
    rfl
  | succ f ih =>
    intro n h
    cases n with
    | zero => rfl
    | succ m =>
      show (m + 1) % 10 + 10 * digitsVal (digitsRevFuel f ((m + 1) / 10)) = m + 1
      have hlt : (m + 1) / 10 < m + 1 := Nat.div_lt_self (Nat.succ_pos m) (by omega)
      rw [ih ((m + 1) / 10) (by omega)]
      omega

/-- The decimal digit list determines the number. -/
lemma digitsRev_inj {a b : Nat} (h : digitsRev a = digitsRev b) : a = b := by
  have ha := digitsVal_digitsRevFuel a a le_rfl
  have hb := digitsVal_digitsRevFuel b b le_rfl
  unfold digitsRev at h
  rw [h] at ha
  omega

/-- Every produced digit is below 10. -/
lemma digitsRevFuel_lt : ∀ fuel n, ∀ d ∈ digitsRevFuel fuel n, d < 10 := by
  intro fuel
  induction fuel with
  | zero =>
    intro n d hd
    cases n <;> simp [digitsRevFuel] at hd
  | succ f ih =>
    intro n d hd
    cases n with
    | zero => simp [digitsRevFuel] at hd
    | succ m =>
      rw [show digitsRevFuel (f + 1) (m + 1) =
          (m + 1) % 10 :: digitsRevFuel f ((m + 1) / 10) from rfl] at hd
      rcases List.mem_cons.mp hd with rfl | hd'
      · exact Nat.mod_lt _ (by omega)
      · exact ih _ d hd'

/-- `digitChar` is injective on decimal digits. -/
lemma digitChar_inj : ∀ d₁ < 10, ∀ d₂ < 10, digitChar d₁ = digitChar d₂ → d₁ = d₂ := by decide

/-- Mapping `digitChar` over digit lists is injective. -/
lemma map_digitChar_inj : ∀ l₁ l₂ : List Nat, (∀ d ∈ l₁, d < 10) → (∀ d ∈ l₂, d < 10) →
    l₁.map digitChar = l₂.map digitChar → l₁ = l₂ := by
  intro l₁
  induction l₁ with
  | nil =>
    intro l₂ _ _ h
    cases l₂ with
    | nil => rfl
    | cons e r => simp at h
  | cons d rest ih =>
    intro l₂ h₁ h₂ h
    cases l₂ with
    | nil => simp at h
    | cons e rest₂ =>
      simp only [List.map_cons, List.cons.injEq] at h
      have hd := digitChar_inj d (h₁ d (List.mem_cons_self d rest))
        e (h₂ e (List.mem_cons_self e rest₂)) h.1
      rw [hd, ih rest₂ (fun x hx => h₁ x (List.mem_cons_of_mem d hx))
        (fun x hx => h₂ x (List.mem_cons_of_mem e hx)) h.2]

/-- The decimal renderer is injective. -/
lemma natRepr_inj : Function.Injective natRepr := by
  have hlt : ∀ n : Nat, ∀ d ∈ (digitsRev n).reverse, d < 10 := by
    intro n d hd
    exact digitsRevFuel_lt n n d (List.mem_reverse.mp hd)
  have key : ∀ a b : Nat,
      (digitsRev a).reverse.map digitChar = (digitsRev b).reverse.map digitChar → a = b := by
    intro a b h
    have := map_digitChar_inj _ _ (hlt a) (hlt b) h
    have hrev := congrArg List.reverse this
    simp only [List.reverse_reverse] at hrev
    exact digitsRev_inj hrev
  intro a b h
  unfold natRepr at h
  by_cases ha : a = 0 <;> by_cases hb : b = 0
  · omega
  · exfalso
    rw [if_pos ha, if_neg hb] at h
    have hdata : ([0] : List Nat).map digitChar = (digitsRev b).reverse.map digitChar :=
      congrArg String.data h
    have h0 := map_digitChar_inj _ _ (by decide) (hlt b) hdata
    have hrev := congrArg List.reverse h0.symm
    simp only [List.reverse_reverse] at hrev
    have := digitsVal_digitsRevFuel b b le_rfl
    rw [show digitsRevFuel b b = digitsRev b from rfl, hrev] at this
    exact hb (by simpa [digitsVal] using this.symm)
  · exfalso
    rw [if_neg ha, if_pos hb] at h
    have hdata : (digitsRev a).reverse.map digitChar = ([0] : List Nat).map digitChar :=
      congrArg String.data h
    have h0 := map_digitChar_inj _ _ (hlt a) (by decide) hdata
    have hrev := congrArg List.reverse h0
    simp only [List.reverse_reverse] at hrev
    have := digitsVal_digitsRevFuel a a le_rfl
    rw [show digitsRevFuel a a = digitsRev a from rfl, hrev] at this
    exact ha (by simpa [digitsVal] using this.symm)
  · rw [if_neg ha, if_neg hb] at h
    exact key a b (congrArg String.data h)

/-- `'EPSG:' + code` ids are injective in the code. -/
lemma epsgId_inj {a b : Nat} (h : epsgId a = epsgId b) : a = b := by
  unfold epsgId at h
  have hd := String.ext_iff.mp h
  rw [String.data_append, String.data_append] at hd
  exact natRepr_inj (String.ext (List.append_cancel_left hd))

/-- `'UTM' + zone + sfx` aliases with the same suffix are injective in
the zone. -/
lemma utmAlias_inj {a b : Nat} {s : String} (h : utmAlias a s = utmAlias b s) : a = b := by
  unfold utmAlias at h
  have hd := String.ext_iff.mp h
  simp only [String.data_append] at hd
  exact natRepr_inj (String.ext (List.append_cancel_left (List.append_cancel_right hd)))

/-- A north alias never collides with a south alias. -/
lemma utmAlias_ne_NS (a b : Nat) : utmAlias a "N" ≠ utmAlias b "S" := by
  intro h
  unfold utmAlias at h
  have hd := String.ext_iff.mp h
  simp only [String.data_append] at hd
  have := congrArg List.getLast? hd
  rw [List.getLast?_concat, List.getLast?_concat] at this
  exact absurd (Option.some.inj this) (by decide)

/-- An EPSG id never collides with a UTM alias (their first characters
differ). -/
lemma epsgId_ne_utmAlias (a b : Nat) (s : String) : epsgId a ≠ utmAlias b s := by
  intro h
  unfold epsgId utmAlias at h
  have hd := String.ext_iff.mp h
  simp only [String.data_append] at hd
  simp only [List.cons_append, List.cons.injEq] at hd
  exact absurd hd.1 (by decide)

/-- The four ids of one zone group, in order. -/
lemma utmZoneGroup_ids (z : Nat) :
    (utmZoneGroup z).map Prod.fst =
      [epsgId (32600 + z), utmAlias z "N", epsgId (32600 + z + 100), utmAlias z "S"] := rfl

/-- The four ids of one zone group are pairwise distinct. -/
lemma utmZoneGroup_ids_nodup (z : Nat) : ((utmZoneGroup z).map Prod.fst).Nodup := by
  rw [utmZoneGroup_ids]
  refine List.nodup_cons.mpr ⟨?_, List.nodup_cons.mpr ⟨?_,
    List.nodup_cons.mpr ⟨?_, List.nodup_singleton _⟩⟩⟩
  · simp only [List.mem_cons, List.not_mem_nil, or_false]
    push_neg
    refine ⟨epsgId_ne_utmAlias _ _ _, fun h => ?_, epsgId_ne_utmAlias _ _ _⟩
    have := epsgId_inj h
    omega
  · simp only [List.mem_cons, List.not_mem_nil, or_false]
    push_neg
    exact ⟨fun h => epsgId_ne_utmAlias _ _ _ h.symm, utmAlias_ne_NS _ _⟩
  · simp only [List.mem_cons, List.not_mem_nil, or_false]
    exact epsgId_ne_utmAlias _ _ _

/-- Zone groups of different zones (in 1–60) share no id. -/
lemma utmZoneGroup_disjoint {z w : Nat} (hz : 1 ≤ z) (hzb : z ≤ 60)
    (hw : 1 ≤ w) (hwb : w ≤ 60) (hne : z ≠ w) :
    List.Disjoint ((utmZoneGroup z).map Prod.fst) ((utmZoneGroup w).map Prod.fst) := by
  intro x hx hy
  rw [utmZoneGroup_ids] at hx hy
  simp only [List.mem_cons, List.not_mem_nil, or_false] at hx hy
  rcases hx with rfl | rfl | rfl | rfl <;> rcases hy with h | h | h | h
  · exact hne (by have := epsgId_inj h; omega)
  · exact epsgId_ne_utmAlias _ _ _ h
  · have := epsgId_inj h; omega
  · exact epsgId_ne_utmAlias _ _ _ h
  · exact epsgId_ne_utmAlias _ _ _ h.symm
  · exact hne (utmAlias_inj h)
  · exact epsgId_ne_utmAlias _ _ _ h.symm
  · exact utmAlias_ne_NS _ _ h
  · have := epsgId_inj h; omega
  · exact epsgId_ne_utmAlias _ _ _ h
  · exact hne (by have := epsgId_inj h; omega)
  · exact epsgId_ne_utmAlias _ _ _ h
  · exact epsgId_ne_utmAlias _ _ _ h.symm
  · exact absurd h.symm (utmAlias_ne_NS _ _)
  · exact epsgId_ne_utmAlias _ _ _ h.symm
  · exact hne (utmAlias_inj h)

/-- No id is registered twice across the whole trace. -/
lemma utmTrace_ids_nodup : (utmTraceSpec.map Prod.fst).Nodup := by
  unfold utmTraceSpec
  rw [List.map_flatMap]
  refine List.nodup_flatMap.mpr ⟨fun z₀ _ => utmZoneGroup_ids_nodup (z₀ + 1), ?_⟩
  refine (List.nodup_range 60).imp_of_mem ?_
  intro a b ha hb hab
  have hA := List.mem_range.mp ha
  have hB := List.mem_range.mp hb
  exact utmZoneGroup_disjoint (by omega) (by omega) (by omega) (by omega) (by omega)

/-- A flatMap of constant-length groups has length `count * k`. -/
lemma flatMap_const_length {α β : Type} (f : α → List β) (k : Nat)
    (hf : ∀ a, (f a).length = k) : ∀ l : List α, (l.flatMap f).length = l.length * k := by
  intro l
  induction l with
  | nil => simp
  | cons a t ih =>
    rw [List.flatMap_cons, List.length_append, hf, ih]
    simp [Nat.succ_mul]
    omega

set_option maxRecDepth 100000 in
set_option maxHeartbeats 4000000 in
/-- C5: run once over an empty registry, `configureProjections` makes
exactly the 240 `defs` registration calls of the spec's enumeration
`utmTraceSpec` — zone-major, hemisphere-minor order, EPSG code
`32600 + zone` for north and `32600 + zone + 100` for south, alias
`UTM<zone>N`/`UTM<zone>S` — with 120 `EPSG:`-prefixed ids, 120 alias
ids, and no duplicate id among the 240; the first and last zone groups
are spelled out concretely. -/
theorem configureProjections_spec :
    (configureProjections ⟨[]⟩).defsCalls = utmTraceSpec ∧
      utmTraceSpec.length = 240 ∧
      (utmTraceSpec.map Prod.fst).Nodup ∧
      (utmTraceSpec.map Prod.fst).countP
        (fun s => decide (s.data.take 5 = "EPSG:".data)) = 120 ∧
      (utmTraceSpec.map Prod.fst).countP
        (fun s => decide (s.data.take 3 = "UTM".data)) = 120 ∧
      utmZoneGroup 1 =
        [("EPSG:32601", some "+proj=utm +zone=1 +north+datum=WGS84 +units=m +no_defs"),
         ("UTM1N", some "+proj=utm +zone=1 +north+datum=WGS84 +units=m +no_defs"),
         ("EPSG:32701", some "+proj=utm +zone=1 +south+datum=WGS84 +units=m +no_defs"),
         ("UTM1S", some "+proj=utm +zone=1 +south+datum=WGS84 +units=m +no_defs")] ∧
      utmZoneGroup 60 =
        [("EPSG:32660", some "+proj=utm +zone=60 +north+datum=WGS84 +units=m +no_defs"),
         ("UTM60N", some "+proj=utm +zone=60 +north+datum=WGS84 +units=m +no_defs"),
         ("EPSG:32760", some "+proj=utm +zone=60 +south+datum=WGS84 +units=m +no_defs"),
         ("UTM60S", some "+proj=utm +zone=60 +south+datum=WGS84 +units=m +no_defs")] :=
  ⟨rfl,
   by
    rw [show (240 : Nat) = (List.range 60).length * 4 from by rw [List.length_range]]
    exact flatMap_const_length (fun z₀ => utmZoneGroup (z₀ + 1)) 4 (fun _ => rfl) (List.range 60),
   utmTrace_ids_nodup,
   by decide, by decide, rfl, rfl⟩

/-! ### C7 — the extent computation is order-independent -/

instance : Std.Antisymm (fun a b : ℚ => a ≤ b) := ⟨fun h₁ h₂ => le_antisymm h₁ h₂⟩

/-- On an already-set slot, the `min` helper of `getFeaturesExtent` is
the rational minimum. -/
lemma jsMin_some (a y : ℚ) : jsMin (some a) y = some (min a y) := by
  unfold jsMin
  rcases lt_or_le y a with h | h
  · simp [h, min_eq_right h.le]
  · simp [not_lt.mpr h, min_eq_left h]

/-- On an already-set slot, the `max` helper of `getFeaturesExtent` is
the rational maximum. -/
lemma jsMax_some (a y : ℚ) : jsMax (some a) y = some (max a y) := by
  unfold jsMax
  rcases lt_or_le a y with h | h
  · simp [h, max_eq_right h.le]
  · simp [not_lt.mpr h, max_eq_left h]

lemma foldl_jsMin_some (l : List ℚ) (a : ℚ) :
    l.foldl jsMin (some a) = some (l.foldl min a) := by
  induction l generalizing a with
  | nil => rfl
  | cons x xs ih => simp [jsMin_some, ih]

lemma foldl_jsMax_some (l : List ℚ) (a : ℚ) :
    l.foldl jsMax (some a) = some (l.foldl max a) := by
  induction l generalizing a with
  | nil => rfl
  | cons x xs ih => simp [jsMax_some, ih]

/-- Folding the `min` helper from `null` computes `List.min?`. -/
lemma foldl_jsMin_eq_min? (l : List ℚ) : l.foldl jsMin none = l.min? := by
  cases l with
  | nil => rfl
  | cons x xs =>
    show xs.foldl jsMin (jsMin none x) = _
    rw [show jsMin none x = some x from rfl, foldl_jsMin_some, List.min?_cons']

/-- Folding the `max` helper from `null` computes `List.max?`. -/
lemma foldl_jsMax_eq_max? (l : List ℚ) : l.foldl jsMax none = l.max? := by
  cases l with
  | nil => rfl
  | cons x xs =>
    show xs.foldl jsMax (jsMax none x) = _
    rw [show jsMax none x = some x from rfl, foldl_jsMax_some, List.max?_cons']

/-- The four slots of the bounds fold evolve independently. -/
lemma foldBounds_components (pts : List (ℚ × ℚ)) (b : Bounds) :
    pts.foldl (fun b p => updateBounds b p.1 p.2) b =
      ⟨(pts.map Prod.fst).foldl jsMin b.minx, (pts.map Prod.snd).foldl jsMin b.miny,
       (pts.map Prod.fst).foldl jsMax b.maxx, (pts.map Prod.snd).foldl jsMax b.maxy⟩ := by
  induction pts generalizing b with
  | nil => simp
  | cons p rest ih =>
    rw [List.foldl_cons, ih]
    simp [updateBounds]

/-- The bounds computed by `getFeaturesExtent` are exactly the
componentwise `min?`/`max?` of the visited coordinates. -/
lemma foldBounds_eq (pts : List (ℚ × ℚ)) :
    foldBounds pts =
      ⟨(pts.map Prod.fst).min?, (pts.map Prod.snd).min?,
       (pts.map Prod.fst).max?, (pts.map Prod.snd).max?⟩ := by
  unfold foldBounds
  rw [foldBounds_components]
  simp [foldl_jsMin_eq_min?, foldl_jsMax_eq_max?]

/-- `List.min?` depends only on the set of members. -/
lemma min?_congr {l₁ l₂ : List ℚ} (h : ∀ x, x ∈ l₁ ↔ x ∈ l₂) :
    l₁.min? = l₂.min? := by
  cases e₁ : l₁.min? with
  | none =>
    rw [List.min?_eq_none_iff] at e₁
    subst e₁
    have : l₂ = [] :=
      List.eq_nil_iff_forall_not_mem.mpr (fun x hx => by simpa using (h x).mpr hx)
    rw [this]
    rfl
  | some a =>
    obtain ⟨hmem, hle⟩ :=
      (List.min?_eq_some_iff le_refl min_choice (fun _ _ _ => le_min_iff)).mp e₁
    exact ((List.min?_eq_some_iff le_refl min_choice (fun _ _ _ => le_min_iff)).mpr
      ⟨(h a).mp hmem, fun b hb => hle b ((h b).mpr hb)⟩).symm

/-- `List.max?` depends only on the set of members. -/
lemma max?_congr {l₁ l₂ : List ℚ} (h : ∀ x, x ∈ l₁ ↔ x ∈ l₂) :
    l₁.max? = l₂.max? := by
  cases e₁ : l₁.max? with
  | none =>
    rw [List.max?_eq_none_iff] at e₁
    subst e₁
    have : l₂ = [] :=
      List.eq_nil_iff_forall_not_mem.mpr (fun x hx => by simpa using (h x).mpr hx)
    rw [this]
    rfl
  | some a =>
    obtain ⟨hmem, hle⟩ :=
      (List.max?_eq_some_iff le_refl max_choice (fun _ _ _ => max_le_iff)).mp e₁
    exact ((List.max?_eq_some_iff le_refl max_choice (fun _ _ _ => max_le_iff)).mpr
      ⟨(h a).mp hmem, fun b hb => hle b ((h b).mpr hb)⟩).symm

/-- The bounds fold depends only on the set of visited coordinates. -/
lemma foldBounds_congr {l₁ l₂ : List (ℚ × ℚ)} (h : ∀ p, p ∈ l₁ ↔ p ∈ l₂) :
    foldBounds l₁ = foldBounds l₂ := by
  have hfst : ∀ x, x ∈ l₁.map Prod.fst ↔ x ∈ l₂.map Prod.fst := by
    intro x
    simp only [List.mem_map]
    exact ⟨fun ⟨p, hp, e⟩ => ⟨p, (h p).mp hp, e⟩, fun ⟨p, hp, e⟩ => ⟨p, (h p).mpr hp, e⟩⟩
  have hsnd : ∀ x, x ∈ l₁.map Prod.snd ↔ x ∈ l₂.map Prod.snd := by
    intro x
    simp only [List.mem_map]
    exact ⟨fun ⟨p, hp, e⟩ => ⟨p, (h p).mp hp, e⟩, fun ⟨p, hp, e⟩ => ⟨p, (h p).mpr hp, e⟩⟩
  rw [foldBounds_eq, foldBounds_eq, min?_congr hfst, min?_congr hsnd,
    max?_congr hfst, max?_congr hsnd]

/-- C7: the extent computation is order-independent — for two map
sources whose first layers carry feature collections visiting the same
set of coordinate pairs (in particular any permutation of the features
or of the vertices within them), `getFeaturesExtent` returns the same
`[minX, minY, maxX, maxY]`; the result depends only on the set of
visited coordinates. -/
theorem getFeaturesExtent_set_invariant
    (ms₁ ms₂ : MapSource) (lay₁ lay₂ : MSLayer) (fs₁ fs₂ : List Feature)
    (hl₁ : ms₁.layers.head? = some lay₁) (hl₂ : ms₂.layers.head? = some lay₂)
    (hf₁ : lay₁.features = some fs₁) (hf₂ : lay₂.features = some fs₂)
    (hset : ∀ p, p ∈ visitedCoords fs₁ ↔ p ∈ visitedCoords fs₂) :
    getFeaturesExtent ms₁ = getFeaturesExtent ms₂ := by
  obtain ⟨z₁, ls₁⟩ := ms₁
  obtain ⟨z₂, ls₂⟩ := ms₂
  cases ls₁ with
  | nil => simp at hl₁
  | cons a₁ t₁ =>
    cases ls₂ with
    | nil => simp at hl₂
    | cons a₂ t₂ =>
      simp only [List.head?_cons, Option.some.injEq] at hl₁ hl₂
      subst hl₁
      subst hl₂
      show some _ = some _
      rw [hf₁, hf₂]
      exact congrArg some (foldBounds_congr hset)

/-- Witness for C7: two single-point features in either order produce
the same extent. -/
theorem getFeaturesExtent_set_invariant_witness :
    (∀ p, p ∈ visitedCoords [⟨.point (1, 2), []⟩, ⟨.point (-3, 4), []⟩] ↔
        p ∈ visitedCoords [⟨.point (-3, 4), []⟩, ⟨.point (1, 2), []⟩]) ∧
      getFeaturesExtent ⟨0, [⟨"osm", true, some [⟨.point (1, 2), []⟩, ⟨.point (-3, 4), []⟩]⟩]⟩ =
        getFeaturesExtent ⟨9, [⟨"osm", true, some [⟨.point (-3, 4), []⟩, ⟨.point (1, 2), []⟩]⟩]⟩ :=
  ⟨by
    intro p
    show p ∈ [((1 : ℚ), (2 : ℚ)), (-3, 4)] ↔ p ∈ [((-3 : ℚ), (4 : ℚ)), (1, 2)]
    simp only [List.mem_cons, List.not_mem_nil, or_false]
    tauto,
   getFeaturesExtent_set_invariant _ _ _ _ _ _ rfl rfl rfl rfl (by
    intro p
    show p ∈ [((1 : ℚ), (2 : ℚ)), (-3, 4)] ↔ p ∈ [((-3 : ℚ), (4 : ℚ)), (1, 2)]
    simp only [List.mem_cons, List.not_mem_nil, or_false]
    tauto)⟩

/-! ### C4 and C10 — the z-order resolver -/

instance : IsTotal ZOrderEntry zGE := ⟨fun a b => le_total b.zIndex a.zIndex⟩

instance : IsTrans ZOrderEntry zGE := ⟨fun _ _ _ h₁ h₂ => le_trans h₂ h₁⟩

/-- When the collection loop of `getLayersByZOrder` succeeds, it has
collected exactly the childless catalog nodes that are on, in catalog
order, each paired with its successfully-dereferenced z-value. -/
lemma collectZLayers_eq_some (ms : Option MapSources) :
    ∀ (catalog : Catalog) (pre : List ZOrderEntry),
      collectZLayers ms catalog = some pre →
      pre.map ZOrderEntry.layer =
          catalog.filter (fun n => decide (n.children = none) && isLayerOn ms n) ∧
        ∀ e ∈ pre, getZValue ms e.layer = some e.zIndex := by
  intro catalog
  induction catalog with
  | nil =>
    intro pre h
    injection h with h'
    subst h'
    simp
  | cons node rest ih =>
    intro pre h
    unfold collectZLayers at h
    by_cases hc : node.children = none
    · rw [if_pos hc] at h
      by_cases ho : isLayerOn ms node = true
      · rw [if_pos ho] at h
        cases hz : getZValue ms node with
        | none => rw [hz] at h; exact absurd h (by simp)
        | some z =>
          rw [hz] at h
          cases hrest : collectZLayers ms rest with
          | none => rw [hrest] at h; exact absurd h (by simp)
          | some pre' =>
            rw [hrest] at h
            obtain rfl : ZOrderEntry.mk z node :: pre' = pre := by
              simpa using h
            obtain ⟨ih₁, ih₂⟩ := ih pre' hrest
            constructor
            · simp [List.filter_cons, hc, ho, ih₁]
            · intro e he
              rcases List.mem_cons.mp he with rfl | he'
              · simpa using hz
              · exact ih₂ e he'
      · rw [if_neg ho] at h
        obtain ⟨ih₁, ih₂⟩ := ih pre h
        refine ⟨?_, ih₂⟩
        rw [List.filter_cons]
        simp only [Bool.and_eq_true, decide_eq_true_eq] at *
        rw [if_neg (by simp [ho])]
        exact ih₁
    · rw [if_neg hc] at h
      obtain ⟨ih₁, ih₂⟩ := ih pre h
      refine ⟨?_, ih₂⟩
      rw [List.filter_cons, if_neg (by simp [hc])]
      exact ih₁

/-- C4: when `getLayersByZOrder` returns a list, that list consists of
exactly the childless catalog nodes for which `isLayerOn` is true (as a
permutation of the catalog-order selection), each entry paired with the
`zIndex` that `getZValue` computes for its layer, and the list is
sorted descending: every entry's `zIndex` is ≥ the `zIndex` of every
later entry. -/
theorem getLayersByZOrder_spec (catalog : Catalog) (ms : Option MapSources)
    (res : List ZOrderEntry) (h : getLayersByZOrder catalog ms = some res) :
    List.Perm (res.map ZOrderEntry.layer)
        (catalog.filter (fun n => decide (n.children = none) && isLayerOn ms n)) ∧
      (∀ e ∈ res, getZValue ms e.layer = some e.zIndex) ∧
      res.Pairwise (fun a b => b.zIndex ≤ a.zIndex) := by
  cases hc : collectZLayers ms catalog with
  | none => rw [getLayersByZOrder, hc] at h; exact absurd h (by simp)
  | some pre =>
    rw [getLayersByZOrder, hc] at h
    obtain rfl : List.insertionSort zGE pre = res := by simpa using h
    obtain ⟨h₁, h₂⟩ := collectZLayers_eq_some ms catalog pre hc
    refine ⟨?_, ?_, ?_⟩
    · rw [← h₁]
      exact (List.perm_insertionSort zGE pre).map ZOrderEntry.layer
    · intro e he
      exact h₂ e ((List.perm_insertionSort zGE pre).mem_iff.mp he)
    · exact (List.sorted_insertionSort zGE pre).imp (fun hab => hab)

/-- Witness for C4: the spec's scenario — two on-layers with zIndex 5
and 10; the zIndex-10 layer is listed first. -/
theorem getLayersByZOrder_spec_witness :
    getLayersByZOrder
        [⟨none, [⟨"A", "l1"⟩]⟩, ⟨none, [⟨"B", "l2"⟩]⟩]
        (some [("A", ⟨5, [⟨"l1", true, none⟩]⟩), ("B", ⟨10, [⟨"l2", true, none⟩]⟩)]) =
      some [⟨10, ⟨none, [⟨"B", "l2"⟩]⟩⟩, ⟨5, ⟨none, [⟨"A", "l1"⟩]⟩⟩] ∧
      ([⟨10, ⟨none, [⟨"B", "l2"⟩]⟩⟩, ⟨5, ⟨none, [⟨"A", "l1"⟩]⟩⟩] :
          List ZOrderEntry).Pairwise (fun a b => b.zIndex ≤ a.zIndex) :=
  ⟨by decide,
   (getLayersByZOrder_spec
      [⟨none, [⟨"A", "l1"⟩]⟩, ⟨none, [⟨"B", "l2"⟩]⟩]
      (some [("A", ⟨5, [⟨"l1", true, none⟩]⟩), ("B", ⟨10, [⟨"l2", true, none⟩]⟩)])
      [⟨10, ⟨none, [⟨"B", "l2"⟩]⟩⟩, ⟨5, ⟨none, [⟨"A", "l1"⟩]⟩⟩]
      (by decide)).2.2⟩

/-- A layer that `isLayerOn` reports on and that has at least one
source ref admits a z-value: its first referenced map source exists. -/
lemma getZValue_isSome_of_on (ms : Option MapSources) (node : CatalogNode)
    (hsrc : node.src ≠ []) (hon : isLayerOn ms node = true) :
    (getZValue ms node).isSome := by
  cases ms with
  | none => simp [isLayerOn] at hon
  | some m =>
    have hall : isLayerOnLoop m node.src true = true := hon
    rw [isLayerOnLoop_eq] at hall
    simp only [Bool.true_and, List.all_eq_true] at hall
    cases hs : node.src with
    | nil => exact absurd hs hsrc
    | cons src rest =>
      have hok := hall src (by rw [hs]; exact List.mem_cons_self src rest)
      obtain ⟨source, hlook, -⟩ := (srcOk_iff m src).mp hok
      show (getZValue (some m) node).isSome
      unfold getZValue
      rw [hs]
      show (Option.map MapSource.zIndex (List.lookup src.mapSourceName m)).isSome = true
      rw [hlook]
      rfl

/-- C10: when every childless node of the catalog carries a non-empty
`src` list, `getLayersByZOrder` never hits the unguarded dereference in
`getZValue`: the lookup is only performed under the `isLayerOn` guard,
whose truth implies the first referenced map source exists, so the
whole computation succeeds. -/
theorem getLayersByZOrder_total (catalog : Catalog) (ms : Option MapSources)
    (h : ∀ n ∈ catalog, n.children = none → n.src ≠ []) :
    (getLayersByZOrder catalog ms).isSome = true := by
  rw [getLayersByZOrder, Option.isSome_map']
  induction catalog with
  | nil => rfl
  | cons node rest ih =>
    have hrest : (collectZLayers ms rest).isSome = true :=
      ih (fun n hn => h n (List.mem_cons_of_mem node hn))
    unfold collectZLayers
    by_cases hc : node.children = none
    · rw [if_pos hc]
      by_cases ho : isLayerOn ms node = true
      · rw [if_pos ho]
        have hz : (getZValue ms node).isSome :=
          getZValue_isSome_of_on ms node (h node (List.mem_cons_self node rest) hc) ho
        cases hzv : getZValue ms node with
        | none => rw [hzv] at hz; exact absurd hz (by simp)
        | some z => rw [Option.isSome_map']; exact hrest
      · rw [if_neg ho]; exact hrest
    · rw [if_neg hc]; exact hrest

/-- Witness for C10 at a concrete catalog mixing a group node, an
on-layer and an off-layer. -/
theorem getLayersByZOrder_total_witness :
    (∀ n ∈ ([⟨some ["kid"], []⟩, ⟨none, [⟨"A", "l1"⟩]⟩, ⟨none, [⟨"B", "l2"⟩]⟩] : Catalog),
        n.children = none → n.src ≠ []) ∧
      (getLayersByZOrder
          [⟨some ["kid"], []⟩, ⟨none, [⟨"A", "l1"⟩]⟩, ⟨none, [⟨"B", "l2"⟩]⟩]
          (some [("A", ⟨5, [⟨"l1", true, none⟩]⟩),
                 ("B", ⟨10, [⟨"l2", false, none⟩]⟩)])).isSome = true :=
  ⟨by decide,
   getLayersByZOrder_total
     [⟨some ["kid"], []⟩, ⟨none, [⟨"A", "l1"⟩]⟩, ⟨none, [⟨"B", "l2"⟩]⟩]
     (some [("A", ⟨5, [⟨"l1", true, none⟩]⟩), ("B", ⟨10, [⟨"l2", false, none⟩]⟩)])
     (by decide)⟩

end Gm3
